import Mathlib

/-!
Verification development for the URL-shortener backend.

The Go sources are shallowly embedded below: time instants are integers
counting seconds (UTC, second precision), the persistence layer is a pure
state holding the link and visit tables together with explicit failure
oracles for the fallible store operations, and every fallible Go function
becomes a Lean function returning `Except`/`Option`.  Machine integers in
the sources never approach their bounds at the inputs of interest, so
`Int`/`Nat` are used without wrap-around.
-/

namespace UrlShortner

/-! ## Go time model

A `time.Time` value is embedded as the number of seconds since the Unix
epoch (`Int`).  `AddDate` follows the proleptic-Gregorian calendar
arithmetic of the Go standard library: the instant is split into a civil
date and a time of day, the year/month/day components are added (months
normalized into years exactly as Go `norm` does, day overflow carried
linearly into later months), and the result is converted back to a day
number.  The civil/day conversions below compute the same proleptic
Gregorian day numbering as Go does.
-/

/-- Go `time.norm hi lo base`: normalize `lo` into `[0, base)`, carrying
into `hi`.  In Go the divisions run on non-negative operands, where
truncating and floor division agree, so `Int.fdiv` is used. -/
def goNorm (hi lo base : Int) : Int × Int :=
  let p := if lo < 0 then
    let n := Int.fdiv (-lo - 1) base + 1
    (hi - n, lo + n * base)
  else (hi, lo)
  if p.2 ≥ base then
    let n := Int.fdiv p.2 base
    (p.1 + n, p.2 - n * base)
  else p

/-- Day number (days since 1970-01-01) of the civil date `y-m-d` in the
proleptic Gregorian calendar.  The month `m` must lie in `[1,12]`; the day
`d` may lie outside its month and is carried linearly, exactly the
behaviour of Go `Date` after month normalization. -/
def daysFromCivil (y m d : Int) : Int :=
  let yAdj := if m ≤ 2 then y - 1 else y
  let era := Int.fdiv yAdj 400
  let yoe := yAdj - era * 400
  let mp := if m > 2 then m - 3 else m + 9
  let doy := Int.fdiv (153 * mp + 2) 5 + d - 1
  let doe := yoe * 365 + Int.fdiv yoe 4 - Int.fdiv yoe 100 + doy
  era * 146097 + doe - 719468

/-- Civil date `(y, m, d)` of a day number (days since 1970-01-01),
inverse of `daysFromCivil` on months in `[1,12]`. -/
def civilFromDays (z0 : Int) : Int × Int × Int :=
  let z := z0 + 719468
  let era := Int.fdiv z 146097
  let doe := z - era * 146097
  let yoe := Int.fdiv (doe - Int.fdiv doe 1460 + Int.fdiv doe 36524 - Int.fdiv doe 146096) 365
  let y := yoe + era * 400
  let doy := doe - (365 * yoe + Int.fdiv yoe 4 - Int.fdiv yoe 100)
  let mp := Int.fdiv (5 * doy + 2) 153
  let d := doy - Int.fdiv (153 * mp + 2) 5 + 1
  let m := if mp < 10 then mp + 3 else mp - 9
  (if m ≤ 2 then y + 1 else y, m, d)

/-- Go `t.AddDate(years, months, days)`: split `t` into civil date and
time of day, add the components with Go month normalization, convert
back.  The wall-clock time of day is preserved. -/
def addDate (t years months days : Int) : Int :=
  let day := Int.fdiv t 86400
  let tod := t - day * 86400
  let c := civilFromDays day
  let m0 := (c.2.1 + months) - 1
  let ym := goNorm (c.1 + years) m0 12
  daysFromCivil ym.1 (ym.2 + 1) (c.2.2 + days) * 86400 + tod

/-- Go `a.After(b)` on embedded instants. -/
def timeAfter (a b : Int) : Bool := b < a

/-! ## Go string helpers used by the controller and middleware -/

/-- Go `unicode.IsSpace` restricted to the ASCII range, which covers every
input the embedded functions are applied to. -/
def isGoSpace (ch : Char) : Bool :=
  ch = ' ' ∨ ch = '\t' ∨ ch = '\n' ∨ ch = '\x0b' ∨ ch = '\x0c' ∨ ch = '\r'

/-- Go `strings.TrimSpace` (ASCII white space). -/
def trimSpace (s : String) : String :=
  ⟨((s.toList.dropWhile isGoSpace).reverse.dropWhile isGoSpace).reverse⟩

/-- Go `strings.HasPrefix`. -/
def startsWithStr (s pre : String) : Bool :=
  pre.toList.isPrefixOf s.toList

/-- Substring search on character lists. -/
def listContains (hay needle : List Char) : Bool :=
  match hay with
  | [] => needle.isEmpty
  | _ :: t => needle.isPrefixOf hay || listContains t needle

/-- Go `strings.Contains`. -/
def containsStr (s sub : String) : Bool :=
  listContains s.toList sub.toList

/-- Go `strings.ToLower` (ASCII letters). -/
def toLowerStr (s : String) : String :=
  ⟨s.toList.map Char.toLower⟩

/-- Decimal digit run parser underlying `strconv.Atoi`: every character
must be a digit and at least one digit must be present. -/
def parseDigits : List Char → Option Nat
  | [] => none
  | l => l.foldl (fun acc ch =>
      match acc with
      | none => none
      | some n => if ch.isDigit then some (n * 10 + (ch.toNat - 48)) else none)
      (some 0)

/-- Go `strconv.Atoi`: optional sign followed by a non-empty digit run.
The Go function additionally fails on 64-bit overflow; every value parsed
by the embedded code is tiny, so overflow is not modelled. -/
def atoi (s : String) : Option Int :=
  match s.toList with
  | [] => none
  | '+' :: rest => (parseDigits rest).map Int.ofNat
  | '-' :: rest => (parseDigits rest).map (fun n => -(Int.ofNat n : Int))
  | l => (parseDigits l).map Int.ofNat

/-! ## Expiration computation (controller.CalculateExpiration) -/

/-- models.CustomExpiration: the five duration fields arrive as strings. -/
structure CustomExpiration where
  years : String
  months : String
  days : String
  hours : String
  minutes : String
deriving DecidableEq, Repr

/-- The distinct error values produced by `CalculateExpiration`; each
constructor corresponds to one `errors.New` message in the source
(parse failure and range failure of a field share one message). -/
inductive ExpErr
  | yearsRange
  | monthsRange
  | daysRange
  | hoursRange
  | minutesRange
  | bounds
  | notFuture
  | invalidPreset (p : String)
deriving DecidableEq, Repr

/-- controller.CalculateExpiration.  Priority: custom expiration over
preset over the 5-year default.  The Go source compares the float64
quantity `years*365 + months*30 + days + hours/24 + minutes/1440` against
`1825`; the comparison below is the same inequality scaled by `1440` into
exact integers (with the valid field ranges the quantity stays below
`1821`, far from any float64 rounding boundary, so the scaled integer
comparison decides identically). -/
def CalculateExpiration (preset : String) (customExp : Option CustomExpiration)
    (createdAt : Int) : Except ExpErr Int :=
  match customExp with
  | some ce =>
    match atoi ce.years with
    | none => .error .yearsRange
    | some years =>
      if years < 0 ∨ years > 4 then .error .yearsRange else
      match atoi ce.months with
      | none => .error .monthsRange
      | some months =>
        if months < 0 ∨ months > 11 then .error .monthsRange else
        match atoi ce.days with
        | none => .error .daysRange
        | some days =>
          if days < 0 ∨ days > 30 then .error .daysRange else
          match atoi ce.hours with
          | none => .error .hoursRange
          | some hours =>
            if hours < 0 ∨ hours > 23 then .error .hoursRange else
            match atoi ce.minutes with
            | none => .error .minutesRange
            | some minutes =>
              if minutes < 0 ∨ minutes > 59 then .error .minutesRange else
              let totalScaled := (years * 365 + months * 30 + days) * 1440
                + hours * 60 + minutes
              if totalScaled ≥ 1825 * 1440 then .error .bounds else
              let expiresAt := addDate createdAt years months days
                + hours * 3600 + minutes * 60
              if timeAfter expiresAt createdAt then .ok expiresAt
              else .error .notFuture
  | none =>
    if preset ≠ "" ∧ preset ≠ "default" then
      let result : Except ExpErr Int :=
        match preset with
        | "1hour" => .ok (createdAt + 3600)
        | "12hours" => .ok (createdAt + 12 * 3600)
        | "1day" => .ok (addDate createdAt 0 0 1)
        | "7days" => .ok (addDate createdAt 0 0 7)
        | "1month" => .ok (addDate createdAt 0 1 0)
        | "6months" => .ok (addDate createdAt 0 6 0)
        | "1year" => .ok (addDate createdAt 1 0 0)
        | _ => .error (.invalidPreset preset)
      match result with
      | .error e => .error e
      | .ok expiresAt =>
        if timeAfter expiresAt createdAt then .ok expiresAt
        else .error .notFuture
    else
      .ok (addDate createdAt 5 0 0)

/-! ## Data model and persistence state

The relational store assumed by the repository is embedded as a pure
state: the `urls` table, the `url_visits` table and the next primary key.
Fallible store operations take explicit failure oracles so that every
error path of the Go code is representable.
-/

/-- models.URL (the fields the verified operations read or write). -/
structure URLRecord where
  id : Nat
  shortCode : String
  originalURL : String
  userID : String
  status : String
  createdAt : Int
  updatedAt : Int
  expiresAt : Option Int
  clickCount : Int
deriving DecidableEq, Repr

/-- models.URLVisit (row id and auto timestamp omitted; no embedded
operation reads them). -/
structure Visit where
  urlID : Nat
  ipAddress : String
  userAgent : String
deriving DecidableEq, Repr

/-- The persistent state: both tables plus the primary-key counter. -/
structure Db where
  urls : List URLRecord
  visits : List Visit
  nextId : Nat
deriving DecidableEq, Repr

/-- An opaque driver-level database error (anything other than
gorm.ErrRecordNotFound). -/
inductive DbErr
  | failure (n : Nat)
deriving DecidableEq, Repr

/-- gorm `First` by short code: the first row whose `short_code` matches. -/
def findByCode (db : Db) (code : String) : Option URLRecord :=
  db.urls.find? (fun u => u.shortCode == code)

/-- controller.GetVisitCount: number of visit rows of one link. -/
def visitCount (db : Db) (urlID : Nat) : Nat :=
  (db.visits.filter (fun v => v.urlID == urlID)).length

/-- Total click counter stored for a link id (sum over matching rows; a
well-formed table has exactly one). -/
def clickCountOf (db : Db) (urlID : Nat) : Int :=
  ((db.urls.filter (fun u => u.id == urlID)).map (fun u => u.clickCount)).sum

/-! ## Atomic visit recording (controller.RecordVisitAndIncrement) -/

/-- Failure oracle for the two statements inside the transaction body. -/
structure TxOracle where
  createVisitErr : Option DbErr
  incrementErr : Option DbErr
deriving DecidableEq, Repr

/-- tx.Create of the visit row. -/
def createVisitStep (db : Db) (o : Option DbErr) (v : Visit) : Except DbErr Db :=
  match o with
  | some e => .error e
  | none => .ok { db with visits := db.visits ++ [v] }

/-- tx.Model(URL).Where(id).UpdateColumn(click_count + 1): a row-level
atomic increment of every row with the given id (no error when no row
matches, exactly as the SQL update). -/
def incrementStep (db : Db) (o : Option DbErr) (urlID : Nat) : Except DbErr Db :=
  match o with
  | some e => .error e
  | none => .ok { db with urls := db.urls.map (fun u =>
      if u.id == urlID then { u with clickCount := u.clickCount + 1 } else u) }

/-- controller.RecordVisitAndIncrement.  gorm `DB.Transaction` runs the
body against the transaction state and commits exactly when the body
returns no error; on error the whole transaction is rolled back.  The
spec assumes a transactional relational store, so commit/rollback is
embedded as exactly that state change. -/
def RecordVisitAndIncrement (db : Db) (o : TxOracle) (urlID : Nat)
    (ip ua : String) : Except DbErr Unit × Db :=
  let body : Except DbErr Db :=
    match createVisitStep db o.createVisitErr ⟨urlID, ip, ua⟩ with
    | .error e => .error e
    | .ok db1 => incrementStep db1 o.incrementErr urlID
  match body with
  | .error e => (.error e, db)
  | .ok db2 => (.ok (), db2)

/-! ## Redirect handler (handler.RedirectURL) -/

/-- The request data the redirect handler reads. -/
structure RedirectRequest where
  method : String
  code : String
  clientIP : String
  userAgent : String
deriving DecidableEq, Repr

/-- The distinct responses the redirect handler can write.  `notFound`
covers both the reserved-path case and the unknown-code case, which emit
the same 404 body in the source. -/
inductive RedirectResponse
  | badRequestMissingCode
  | notFound
  | internalError
  | gonePaused
  | goneExpired
  | headOk (location : String)
  | redirectFound (location : String)
deriving DecidableEq, Repr

/-- The reserved path segments excluded from short-code resolution. -/
def reservedCodes : List String :=
  ["swagger", "api", "auth", "favicon.ico", "robots.txt"]

/-- handler.RedirectURL.  `lookupErr` is the failure oracle of the
`First` lookup (a non-not-found driver error); `o` is the failure oracle
of the visit-recording transaction, whose error is logged and ignored by
the handler (the redirect proceeds regardless). -/
def RedirectURL (db : Db) (lookupErr : Option DbErr) (o : TxOracle)
    (req : RedirectRequest) (now : Int) : RedirectResponse × Db :=
  let code := trimSpace req.code
  if code == "" then (.badRequestMissingCode, db)
  else if reservedCodes.contains code then (.notFound, db)
  else
    match lookupErr with
    | some _ => (.internalError, db)
    | none =>
      match findByCode db code with
      | none => (.notFound, db)
      | some urlRecord =>
        if urlRecord.status == "paused" then (.gonePaused, db)
        else if (match urlRecord.expiresAt with
                 | some e => decide (e ≤ now)
                 | none => false) then (.goneExpired, db)
        else if req.method == "HEAD" then (.headOk urlRecord.originalURL, db)
        else
          let r := RecordVisitAndIncrement db o urlRecord.id req.clientIP req.userAgent
          (.redirectFound urlRecord.originalURL, r.2)

/-! ## Code generation with collision retry (controller.GenerateShortCode) -/

/-- Oracle for one creation run: the code produced by
util.GenerateShortCode at each attempt, and the store failures of the
lookup and the insert at each attempt. -/
structure GenOracle where
  gen : Nat → String
  lookupErr : Nat → Option DbErr
  createErr : Nat → Option DbErr

/-- The error outcomes of controller.GenerateShortCode. -/
inductive GenErr
  | db (e : DbErr)
  | calcExp (e : ExpErr)
  | exhausted
deriving DecidableEq, Repr

/-- The bounded retry loop of controller.GenerateShortCode, recursing on
the remaining attempts.  At each attempt the generated code is looked up;
a driver error aborts at once, an existing code retries, a fresh code is
inserted. -/
def generateShortCodeLoop (db : Db) (o : GenOracle) (originalURL userID preset : String)
    (customExp : Option CustomExpiration) (now : Int) :
    Nat → Nat → Except GenErr (URLRecord × Db)
  | _, 0 => .error .exhausted
  | attempt, fuel + 1 =>
    let code := o.gen attempt
    match o.lookupErr attempt with
    | some e => .error (.db e)
    | none =>
      match findByCode db code with
      | some _ =>
        generateShortCodeLoop db o originalURL userID preset customExp now (attempt + 1) fuel
      | none =>
        match CalculateExpiration preset customExp now with
        | .error e => .error (.calcExp e)
        | .ok expiresAt =>
          let urlRecord : URLRecord :=
            { id := db.nextId, shortCode := code, originalURL := originalURL,
              userID := userID, status := "active", createdAt := now,
              updatedAt := now, expiresAt := some expiresAt, clickCount := 0 }
          match o.createErr attempt with
          | some e => .error (.db e)
          | none =>
            let db2 : Db := { urls := db.urls ++ [urlRecord],
                              visits := db.visits, nextId := db.nextId + 1 }
            .ok (urlRecord, db2)

/-- The attempt bound of controller.GenerateShortCode. -/
def maxAttempts : Nat := 10

/-- controller.GenerateShortCode. -/
def GenerateShortCode (db : Db) (o : GenOracle) (originalURL userID preset : String)
    (customExp : Option CustomExpiration) (now : Int) : Except GenErr (URLRecord × Db) :=
  generateShortCodeLoop db o originalURL userID preset customExp now 0 maxAttempts

/-! ## Link update (controller.UpdateURL) -/

/-- models.UpdateURLRequest. -/
structure UpdateURLRequest where
  url : String
  expirationPreset : String
  customExpiration : Option CustomExpiration
deriving DecidableEq, Repr

/-- The distinct error values of controller.UpdateURL, one constructor
per errors.New site (calc errors are propagated from
CalculateExpiration). -/
inductive UpdateErr
  | notFound
  | db (e : DbErr)
  | permissionDenied
  | noFields
  | bothExpiration
  | expiredLinkUpdate
  | emptyURL
  | invalidURLFormat
  | calcExp (e : ExpErr)
deriving DecidableEq, Repr

/-- gorm Save by primary key: replace the rows with the same id. -/
def saveURL (db : Db) (rec : URLRecord) : Db :=
  { db with urls := db.urls.map (fun u => if u.id == rec.id then rec else u) }

/-- The destination normalization of controller.UpdateURL: prepend the
https scheme when neither scheme is present. -/
def normalizeURL (s : String) : String :=
  if !startsWithStr s "http://" && !startsWithStr s "https://"
  then "https://" ++ s else s

/-- controller.UpdateURL.  String length is counted in characters; every
input of interest is ASCII, where Go byte length agrees. -/
def UpdateURL (db : Db) (lookupErr saveErr : Option DbErr) (code userID : String)
    (req : UpdateURLRequest) (now : Int) : Except UpdateErr (URLRecord × Db) :=
  match lookupErr with
  | some e => .error (.db e)
  | none =>
  match findByCode db code with
  | none => .error .notFound
  | some urlRecord =>
    if urlRecord.userID ≠ userID then .error .permissionDenied else
    let hasURLUpdate := trimSpace req.url != ""
    let hasExpirationUpdate := (req.expirationPreset != "") || req.customExpiration.isSome
    let hasBothExpiration := (req.expirationPreset != "") && req.customExpiration.isSome
    if !hasURLUpdate && !hasExpirationUpdate then .error .noFields else
    if hasBothExpiration then .error .bothExpiration else
    let isExpired := match urlRecord.expiresAt with
      | some e => decide (e ≤ now)
      | none => false
    if isExpired && hasURLUpdate && !hasExpirationUpdate then .error .expiredLinkUpdate else
    let afterURL : Except UpdateErr URLRecord :=
      if hasURLUpdate then
        let newURL := trimSpace req.url
        if newURL = "" then .error .emptyURL else
        let newURL := normalizeURL newURL
        if newURL.length < 10 then .error .invalidURLFormat
        else .ok { urlRecord with originalURL := newURL }
      else .ok urlRecord
    match afterURL with
    | .error e => .error e
    | .ok rec1 =>
      let afterExp : Except UpdateErr URLRecord :=
        if hasExpirationUpdate then
          match CalculateExpiration req.expirationPreset req.customExpiration now with
          | .error e => .error (.calcExp e)
          | .ok newExpiresAt => .ok { rec1 with expiresAt := some newExpiresAt }
        else .ok rec1
      match afterExp with
      | .error e => .error e
      | .ok rec2 =>
        let rec3 := { rec2 with updatedAt := now }
        match saveErr with
        | some e => .error (.db e)
        | none => .ok (rec3, saveURL db rec3)

/-! ## Sliding-window rate limiter (middleware.RateLimiter)

The Go map from client address to timestamp slice is embedded as an
association list with at most one entry per key (Go map semantics:
lookup of an absent key yields the zero value, the empty slice). -/

/-- middleware.RateLimiter state: per-key request timestamps, the request
bound and the window length (seconds). -/
structure RateLimiter where
  requests : List (String × List Int)
  maxReqs : Nat
  window : Int
deriving DecidableEq, Repr

/-- Go map read `rl.requests[ip]`: the zero value (empty slice) when the
key is absent. -/
def lookupTimes (m : List (String × List Int)) (k : String) : List Int :=
  match m.find? (fun p => p.1 == k) with
  | some p => p.2
  | none => []

/-- Go map write `rl.requests[ip] = ts`. -/
def storeTimes (m : List (String × List Int)) (k : String) (ts : List Int) :
    List (String × List Int) :=
  if (m.find? (fun p => p.1 == k)).isSome
  then m.map (fun p => if p.1 == k then (k, ts) else p)
  else m ++ [(k, ts)]

/-- middleware.RateLimiter.Allow at instant `now`.  Timestamps strictly
after `now - window` survive the pruning pass (`t.After(cutoff)`); when
the surviving count already reaches the bound the call is rejected and —
exactly as in the source — nothing is written back, not even the pruned
list; otherwise the pruned list plus `now` is stored. -/
def Allow (rl : RateLimiter) (ip : String) (now : Int) : Bool × RateLimiter :=
  let cutoff := now - rl.window
  let times := lookupTimes rl.requests ip
  let validTimes := times.filter (fun t => decide (cutoff < t))
  if rl.maxReqs ≤ validTimes.length then (false, rl)
  else (true, { rl with requests := storeTimes rl.requests ip (validTimes ++ [now]) })

/-- middleware.RateLimiter.cleanupOldEntries at instant `now`: prune every
list and drop the keys whose list became empty. -/
def cleanupOldEntries (rl : RateLimiter) (now : Int) : RateLimiter :=
  let cutoff := now - rl.window
  let pruned := rl.requests.map (fun p => (p.1, p.2.filter (fun t => decide (cutoff < t))))
  { rl with requests := pruned.filter (fun p => !p.2.isEmpty) }

/-- `n` consecutive Allow calls for one key at one instant, returning the
results in call order together with the final state. -/
def allowRun (rl : RateLimiter) (ip : String) (now : Int) : Nat → List Bool × RateLimiter
  | 0 => ([], rl)
  | n + 1 =>
    let r := Allow rl ip now
    let rest := allowRun r.2 ip now n
    (r.1 :: rest.1, rest.2)

/-! ## Token codec (util.GenerateToken / ValidateToken and the QR variant)

The JWT wire format is embedded symbolically: a signed token is the
payload together with the algorithm tag and a signature, and HMAC is a
perfect MAC — the signature of a payload under a key is the pair of both,
so two signatures agree exactly when key, algorithm and payload agree.
The JSON field semantics is kept: a field absent from the producing side
decodes as the zero value "" on the consuming side, which is how a
general identity token yields an empty `token_type` when parsed as a QR
token. -/

/-- The signing algorithm tag carried in the token header. -/
inductive SigAlg
  | hs256
  | rs256
  | algNone
deriving DecidableEq, Repr

/-- The jwt keyfunc accepts exactly the HMAC family. -/
def SigAlg.isHMAC : SigAlg → Bool
  | .hs256 => true
  | _ => false

/-- The union of the claim fields of both token kinds; identity tokens
carry empty `shortCode`/`tokenType`, QR tokens carry an empty
`provider`. -/
structure TokenPayload where
  userID : String
  email : String
  provider : String
  shortCode : String
  tokenType : String
  expiresAt : Int
  issuedAt : Int
  notBeforeAt : Int
  issuer : String
  subject : String
deriving DecidableEq, Repr

/-- Symbolic HMAC signature value. -/
structure Signature where
  key : String
  alg : SigAlg
  payload : TokenPayload
deriving DecidableEq, Repr

/-- Signing: the perfect-MAC embedding of HMAC-SHA256. -/
def macSign (key : String) (alg : SigAlg) (payload : TokenPayload) : Signature :=
  ⟨key, alg, payload⟩

/-- A decoded token on the wire. -/
structure SignedToken where
  alg : SigAlg
  payload : TokenPayload
  sig : Signature
deriving DecidableEq, Repr

/-- The distinct verification failures of the token codec. -/
inductive TokenErr
  | noSecret
  | malformed
  | badAlg
  | badSignature
  | expired
  | notYetValid
  | wrongTokenType
deriving DecidableEq, Repr

/-- util.JWTClaims as returned to callers of ValidateToken. -/
structure JWTClaims where
  userID : String
  email : String
  provider : String
deriving DecidableEq, Repr

/-- util.QRTokenClaims as returned to callers of ValidateQRToken. -/
structure QRTokenClaims where
  userID : String
  email : String
  shortCode : String
  tokenType : String
deriving DecidableEq, Repr

/-- The claims payload util.GenerateToken builds: an identity token,
with empty short-code and type-discriminator fields. -/
def identityPayload (userID email provider : String) (expiresAt now : Int) : TokenPayload :=
  { userID := userID, email := email, provider := provider,
    shortCode := "", tokenType := "",
    expiresAt := expiresAt, issuedAt := now, notBeforeAt := now,
    issuer := "url-shortener-backend", subject := userID }

/-- util.GenerateToken: fails when no signing secret is configured,
otherwise signs an identity payload with expiry `now + expiryHours`
hours, issued-at and not-before `now`. -/
def GenerateToken (secret : String) (expiryHours : Int)
    (userID email provider : String) (now : Int) : Except TokenErr SignedToken :=
  if secret = "" then .error .noSecret else
  let payload := identityPayload userID email provider (now + expiryHours * 3600) now
  .ok { alg := .hs256, payload := payload, sig := macSign secret .hs256 payload }

/-- util.ValidateToken: requires a configured secret, an HMAC-family
algorithm, a matching signature, and a current time inside the validity
window — jwt v5 rejects when `now` is not strictly before `exp` or is
strictly before `nbf`. -/
def ValidateToken (secret : String) (tok : SignedToken) (now : Int) :
    Except TokenErr JWTClaims :=
  if secret = "" then .error .noSecret else
  if !tok.alg.isHMAC then .error .badAlg else
  if tok.sig ≠ macSign secret tok.alg tok.payload then .error .badSignature else
  if tok.payload.expiresAt ≤ now then .error .expired else
  if now < tok.payload.notBeforeAt then .error .notYetValid else
  .ok ⟨tok.payload.userID, tok.payload.email, tok.payload.provider⟩

/-- util.GenerateQRToken: the scoped single-purpose variant, tagged with
the type discriminator `qr` and bound to one short code; expiry is
`now + expiryMinutes` minutes. -/
def GenerateQRToken (secret : String) (expiryMinutes : Int)
    (userID email shortCode : String) (now : Int) : Except TokenErr SignedToken :=
  if secret = "" then .error .noSecret else
  let payload : TokenPayload :=
    { userID := userID, email := email, provider := "",
      shortCode := shortCode, tokenType := "qr",
      expiresAt := now + expiryMinutes * 60, issuedAt := now, notBeforeAt := now,
      issuer := "url-shortener-backend", subject := userID }
  .ok { alg := .hs256, payload := payload, sig := macSign secret .hs256 payload }

/-- A concrete identity token as issued by GenerateToken with secret
`sec`, 24-hour expiry, at the epoch; used to exhibit concrete
instances. -/
def sampleIdentityToken : SignedToken :=
  { alg := .hs256,
    payload := identityPayload "u" "e" "google" 86400 0,
    sig := macSign "sec" .hs256 (identityPayload "u" "e" "google" 86400 0) }

/-- util.ValidateQRToken: the checks of ValidateToken and then the type
discriminator check `token_type = qr` on the extracted claims. -/
def ValidateQRToken (secret : String) (tok : SignedToken) (now : Int) :
    Except TokenErr QRTokenClaims :=
  if secret = "" then .error .noSecret else
  if !tok.alg.isHMAC then .error .badAlg else
  if tok.sig ≠ macSign secret tok.alg tok.payload then .error .badSignature else
  if tok.payload.expiresAt ≤ now then .error .expired else
  if now < tok.payload.notBeforeAt then .error .notYetValid else
  let claims : QRTokenClaims :=
    ⟨tok.payload.userID, tok.payload.email, tok.payload.shortCode, tok.payload.tokenType⟩
  if claims.tokenType ≠ "qr" then .error .wrongTokenType else
  .ok claims

/-! ## Authentication gateway (middleware.validateAuthToken) -/

/-- The request data the gateway reads. -/
structure HttpRequest where
  path : String
  rawQuery : String
  cookies : List (String × String)
  headers : List (String × String)
deriving DecidableEq, Repr

/-- gin `c.Cookie`: fails when the cookie is absent. -/
def getCookie (req : HttpRequest) (name : String) : Option String :=
  (req.cookies.find? (fun p => p.1 == name)).map (fun p => p.2)

/-- gin `c.GetHeader`: empty string when the header is absent. -/
def getHeader (req : HttpRequest) (name : String) : String :=
  match req.headers.find? (fun p => p.1 == name) with
  | some p => p.2
  | none => ""

/-- middleware.isAPIRequest: API path, XHR marker header, or a JSON
Accept header. -/
def isAPIRequest (req : HttpRequest) : Bool :=
  startsWithStr req.path "/api/" ||
  (getHeader req "X-Requested-With" == "XMLHttpRequest") ||
  containsStr (getHeader req "Accept") "application/json"

/-- Hexadecimal digit of a value below 16, upper case as in Go
url.QueryEscape. -/
def hexDigit (n : Nat) : Char :=
  "0123456789ABCDEF".toList.getD n '0'

/-- Go url.QueryEscape of one character (inputs of interest are ASCII, so
one character is one byte). -/
def queryEscapeChar (ch : Char) : List Char :=
  if ch.isAlphanum || ch == '-' || ch == '_' || ch == '.' || ch == '~' then [ch]
  else if ch == ' ' then ['+']
  else ['%', hexDigit (ch.toNat / 16 % 16), hexDigit (ch.toNat % 16)]

/-- Go url.QueryEscape. -/
def queryEscape (s : String) : String :=
  ⟨(s.toList.map queryEscapeChar).flatten⟩

/-- middleware.buildEncodedRedirectURL: the original path plus query
string, URL-encoded. -/
def buildEncodedRedirectURL (req : HttpRequest) : String :=
  let redirectURL := if req.rawQuery != "" then req.path ++ "?" ++ req.rawQuery else req.path
  queryEscape redirectURL

/-- One response-writing action of the gateway, in the order the gin
context receives them. -/
inductive RespAction
  | setHeader (name value : String)
  | jsonResponse (status : Nat) (message : String)
  | redirectResponse (status : Nat) (location : String)
deriving DecidableEq, Repr

/-- middleware.sendUnauthorizedJSON: the structured 401 body, then abort. -/
def sendUnauthorizedJSON (message : String) : List RespAction :=
  [.jsonResponse 401 message]

/-- middleware.authConfig. -/
structure AuthConfig where
  cookieName : String
  storeTokenInCtx : Bool
  allowRedirects : Bool
  redirectLoginPath : String
deriving DecidableEq, Repr

/-- Is a response action one of the cache-prevention headers of
handler.setNoCacheHeaders? -/
def isCachePreventionHeader : RespAction → Bool
  | .setHeader n _ => n == "Cache-Control" || n == "Pragma" || n == "Expires"
  | _ => false

/-- Drop the first `n` characters (ASCII slicing of Go
`s[len("Bearer "):]`). -/
def dropStr (n : Nat) (s : String) : String :=
  ⟨s.toList.drop n⟩

/-- Hexadecimal digit test. -/
def isHexDigit (ch : Char) : Bool :=
  ch.isDigit || ('a' ≤ ch && ch ≤ 'f') || ('A' ≤ ch && ch ≤ 'F')

/-- google/uuid.Parse restricted to the canonical 36-character
8-4-4-4-12 form, the only form the embedded producers emit (the library
also accepts urn-prefixed, braced and 32-digit variants). -/
def uuidParseOk (s : String) : Bool :=
  let l := s.toList
  (l.length == 36) &&
  (List.range 36).all (fun i =>
    if i == 8 || i == 13 || i == 18 || i == 23 then l.getD i ' ' == '-'
    else isHexDigit (l.getD i ' '))

/-- The outcome the gateway propagates: either the validated identity
(token string, claims, parsed subject) stored in the request context, or
a terminating failure. -/
inductive AuthOutcome
  | ok (token : String) (claims : JWTClaims) (userID : String)
  | failed
deriving DecidableEq, Repr

/-- The redirect-or-JSON failure branch shared by every failure site of
middleware.validateAuthToken. -/
def authFailureActions (req : HttpRequest) (config : AuthConfig)
    (message : String) : List RespAction :=
  if config.allowRedirects && !isAPIRequest req then
    [.redirectResponse 307
      (config.redirectLoginPath ++ "?redirect=" ++ buildEncodedRedirectURL req)]
  else sendUnauthorizedJSON message

/-- middleware.validateAuthToken.  `decode` is the wire decoding of a
token string (parse failure when none); the cookie is read first, with
the Bearer header as fallback; verification failure first sets the
`WWW-Authenticate` header (expired distinguished from generic) and then
branches redirect-or-JSON; an unparsable subject is a failure of its
own. -/
def validateAuthToken (decode : String → Option SignedToken) (secret : String)
    (now : Int) (req : HttpRequest) (config : AuthConfig) :
    AuthOutcome × List RespAction :=
  let cookieTok : Option String :=
    match getCookie req config.cookieName with
    | some t => if t == "" then none else some t
    | none => none
  let tokenRes : Except (List RespAction) String :=
    match cookieTok with
    | some t => .ok t
    | none =>
      let authHeader := getHeader req "Authorization"
      if authHeader == "" || !startsWithStr (toLowerStr authHeader) "bearer " then
        .error (authFailureActions req config "Missing or invalid authentication token")
      else .ok (trimSpace (dropStr 7 authHeader))
  match tokenRes with
  | .error actions => (.failed, actions)
  | .ok token =>
    let vres : Except TokenErr JWTClaims :=
      match decode token with
      | none => .error .malformed
      | some tk => ValidateToken secret tk now
    match vres with
    | .error e =>
      let www := if e = TokenErr.expired then
          "Bearer error=\"invalid_token\", error_description=\"token expired\""
        else
          "Bearer error=\"invalid_token\", error_description=\"invalid token\""
      (.failed, RespAction.setHeader "WWW-Authenticate" www ::
        authFailureActions req config "Invalid or expired token")
    | .ok claims =>
      if !uuidParseOk claims.userID then
        (.failed, authFailureActions req config "Invalid user identity in token")
      else
        (.ok token claims claims.userID, [])

/-! ## Sample values used to exhibit concrete instances -/

/-- A concrete active link. -/
def sampleRec : URLRecord :=
  { id := 1, shortCode := "abc123", originalURL := "https://example.com",
    userID := "u1", status := "active", createdAt := 0, updatedAt := 0,
    expiresAt := some 1000, clickCount := 3 }

/-- A concrete store holding the one link. -/
def sampleDb : Db :=
  { urls := [sampleRec], visits := [], nextId := 2 }

/-! ## Theorems -/

/-- Helper: mapping the row-level click increment over a table raises the
summed counter of the targeted id by the number of matching rows (the
increment does not change any id, so the set of matching rows is
unchanged). -/
theorem clickSum_increment (l : List URLRecord) (urlID : Nat) :
    (((l.map (fun u => if u.id == urlID then { u with clickCount := u.clickCount + 1 } else u)).filter
        (fun u => u.id == urlID)).map (fun u => u.clickCount)).sum
      = ((l.filter (fun u => u.id == urlID)).map (fun u => u.clickCount)).sum
        + ((l.filter (fun u => u.id == urlID)).length : Int) := by
  induction l with
  | nil => simp
  | cons h t ih =>
    by_cases hc : h.id = urlID
    · simp only [List.map_cons, List.filter_cons, hc, beq_self_eq_true, if_true, reduceIte,
        List.map_cons, List.sum_cons, List.length_cons, ih]
      push_cast
      ring
    · have hcb : (h.id == urlID) = false := beq_eq_false_iff_ne.mpr hc
      simp only [List.map_cons, List.filter_cons, hcb, if_false, Bool.false_eq_true, reduceIte, ih]

/-- Helper: the observable effect of a failure-free
RecordVisitAndIncrement call — one more visit row and a click counter
one higher for the targeted link. -/
theorem rvi_success_counts (db : Db) (urlID : Nat) (ip ua : String)
    (hone : (db.urls.filter (fun u => u.id == urlID)).length = 1) :
    visitCount (RecordVisitAndIncrement db ⟨none, none⟩ urlID ip ua).2 urlID
      = visitCount db urlID + 1 ∧
    clickCountOf (RecordVisitAndIncrement db ⟨none, none⟩ urlID ip ua).2 urlID
      = clickCountOf db urlID + 1 := by
  unfold RecordVisitAndIncrement createVisitStep incrementStep
  constructor
  · simp [visitCount, List.filter_append]
  · simp only [clickCountOf]
    rw [clickSum_increment db.urls urlID, hone]
    simp

/-- C1: RecordVisitAndIncrement is all-or-nothing.  For every store
state, failure oracle, link (with its one row in the table) and call: a
successful call appends exactly one visit row for the link and raises
its click counter by exactly one, and a failing call — whichever of the
two statements fails — leaves the store exactly as it was, so partial
application is impossible. -/
theorem recordVisitAndIncrement_atomic (db : Db) (o : TxOracle) (urlID : Nat) (ip ua : String)
    (hone : (db.urls.filter (fun u => u.id == urlID)).length = 1) :
    ((RecordVisitAndIncrement db o urlID ip ua).1 = Except.ok () →
       visitCount (RecordVisitAndIncrement db o urlID ip ua).2 urlID = visitCount db urlID + 1 ∧
       (RecordVisitAndIncrement db o urlID ip ua).2.visits = db.visits ++ [⟨urlID, ip, ua⟩] ∧
       clickCountOf (RecordVisitAndIncrement db o urlID ip ua).2 urlID
         = clickCountOf db urlID + 1) ∧
    (∀ e, (RecordVisitAndIncrement db o urlID ip ua).1 = Except.error e →
       (RecordVisitAndIncrement db o urlID ip ua).2 = db) := by
  unfold RecordVisitAndIncrement createVisitStep incrementStep
  cases hc : o.createVisitErr with
  | some e => simp
  | none =>
    cases hi : o.incrementErr with
    | some e => simp
    | none =>
      constructor
      · intro _
        refine ⟨?_, rfl, ?_⟩
        · simp [visitCount, List.filter_append]
        · simp only [clickCountOf]
          rw [clickSum_increment db.urls urlID, hone]
          simp
      · intro e h
        simp at h

/-- C1 witness: the atomicity statement applied to the sample store with
a failure-free oracle. -/
theorem recordVisitAndIncrement_atomic_witness :
    visitCount (RecordVisitAndIncrement sampleDb ⟨none, none⟩ 1 "ip" "ua").2 1
      = visitCount sampleDb 1 + 1 ∧
    clickCountOf (RecordVisitAndIncrement sampleDb ⟨none, none⟩ 1 "ip" "ua").2 1
      = clickCountOf sampleDb 1 + 1 :=
  have h := (recordVisitAndIncrement_atomic sampleDb ⟨none, none⟩ 1 "ip" "ua" (by rfl)).1 (by rfl)
  ⟨h.1, h.2.2⟩

/-- C2: for a short code resolving to a non-paused, non-expired link, a
HEAD status probe returns the store untouched — RecordVisitAndIncrement
is not invoked, no visit row appears, no counter moves — while a
successful GET redirect records exactly one visit row and raises the
click counter by exactly one. -/
theorem redirect_head_probe_vs_get (db : Db) (req : RedirectRequest) (now : Int)
    (rec : URLRecord)
    (htrim : trimSpace req.code = req.code)
    (hne : req.code ≠ "")
    (hres : reservedCodes.contains req.code = false)
    (hfind : findByCode db req.code = some rec)
    (hpaused : rec.status ≠ "paused")
    (hexp : ∀ e, rec.expiresAt = some e → now < e)
    (hone : (db.urls.filter (fun u => u.id == rec.id)).length = 1) :
    (req.method = "HEAD" →
      RedirectURL db none ⟨none, none⟩ req now = (RedirectResponse.headOk rec.originalURL, db)) ∧
    (req.method = "GET" →
      (RedirectURL db none ⟨none, none⟩ req now).1
          = RedirectResponse.redirectFound rec.originalURL ∧
      visitCount (RedirectURL db none ⟨none, none⟩ req now).2 rec.id
          = visitCount db rec.id + 1 ∧
      clickCountOf (RedirectURL db none ⟨none, none⟩ req now).2 rec.id
          = clickCountOf db rec.id + 1) := by
  have hcode : (req.code == "") = false := beq_eq_false_iff_ne.mpr hne
  have hpb : (rec.status == "paused") = false := beq_eq_false_iff_ne.mpr hpaused
  have hexpb : (match rec.expiresAt with
      | some e => decide (e ≤ now)
      | none => false) = false := by
    cases hre : rec.expiresAt with
    | none => rfl
    | some e =>
      have := hexp e hre
      simpa using by omega
  have hred : RedirectURL db none ⟨none, none⟩ req now
      = (if req.method == "HEAD" then (RedirectResponse.headOk rec.originalURL, db)
         else (RedirectResponse.redirectFound rec.originalURL,
           (RecordVisitAndIncrement db ⟨none, none⟩ rec.id req.clientIP req.userAgent).2)) := by
    simp only [RedirectURL, htrim, hcode, Bool.false_eq_true, if_false, hres, hfind, hpb, hexpb]
  have hrvi := rvi_success_counts db rec.id req.clientIP req.userAgent hone
  constructor
  · intro hm
    rw [hred, hm]
    rfl
  · intro hm
    rw [hred, hm]
    exact ⟨rfl, hrvi.1, hrvi.2⟩

/-- C2 witness: on the sample link, a HEAD probe at an in-window instant
returns the store unchanged, and a GET adds exactly one visit. -/
theorem redirect_head_probe_vs_get_witness :
    RedirectURL sampleDb none ⟨none, none⟩ ⟨"HEAD", "abc123", "ip", "ua"⟩ 500
      = (RedirectResponse.headOk sampleRec.originalURL, sampleDb) ∧
    visitCount (RedirectURL sampleDb none ⟨none, none⟩ ⟨"GET", "abc123", "ip", "ua"⟩ 500).2
        sampleRec.id
      = visitCount sampleDb sampleRec.id + 1 :=
  have hH := redirect_head_probe_vs_get sampleDb ⟨"HEAD", "abc123", "ip", "ua"⟩ 500 sampleRec
    rfl (by decide) rfl rfl (by decide)
    (fun e he => by simp [sampleRec] at he; omega) rfl
  have hG := redirect_head_probe_vs_get sampleDb ⟨"GET", "abc123", "ip", "ua"⟩ 500 sampleRec
    rfl (by decide) rfl rfl (by decide)
    (fun e he => by simp [sampleRec] at he; omega) rfl
  ⟨hH.1 rfl, (hG.2 rfl).2.1⟩

/-- C9: on a link whose expiry is in the past, UpdateURL with only a
destination change fails with the expired-link error, while UpdateURL
with a (valid) expiration change — alone or alongside a valid
destination change — succeeds and stores the new expiry. -/
theorem updateURL_expired_link (db : Db) (code userID : String) (req : UpdateURLRequest)
    (now e : Int) (rec : URLRecord)
    (hfind : findByCode db code = some rec)
    (howner : rec.userID = userID)
    (hexp : rec.expiresAt = some e)
    (hpast : e ≤ now) :
    ((trimSpace req.url ≠ "" ∧ req.expirationPreset = "" ∧ req.customExpiration = none) →
      UpdateURL db none none code userID req now = Except.error UpdateErr.expiredLinkUpdate) ∧
    (∀ newExp, (req.expirationPreset ≠ "" ∨ req.customExpiration ≠ none) →
      ¬(req.expirationPreset ≠ "" ∧ req.customExpiration ≠ none) →
      CalculateExpiration req.expirationPreset req.customExpiration now = Except.ok newExp →
      (trimSpace req.url ≠ "" → 10 ≤ (normalizeURL (trimSpace req.url)).length) →
      ∃ r db2, UpdateURL db none none code userID req now = Except.ok (r, db2) ∧
        r.expiresAt = some newExp) := by
  have hownb : ¬rec.userID ≠ userID := by simp [howner]
  have hexpb : (match rec.expiresAt with
      | some x => decide (x ≤ now)
      | none => false) = true := by rw [hexp]; simpa using hpast
  constructor
  · rintro ⟨hu, hp, hc⟩
    have hub : (trimSpace req.url != "") = true := by simpa using hu
    have hpb : (req.expirationPreset != "") = false := by simp [hp]
    have hcb : req.customExpiration.isSome = false := by simp [hc]
    simp only [UpdateURL, hfind]
    rw [if_neg hownb]
    simp only [hub, hpb, hcb, hexpb, Bool.not_true, Bool.not_false, Bool.false_or,
      Bool.and_false, Bool.false_and, Bool.and_true, Bool.true_and, Bool.or_false,
      Bool.false_eq_true, if_false, if_true, reduceIte]
  · rintro newExp hor hnand hcalc hurl
    have hexpu : ((req.expirationPreset != "") || req.customExpiration.isSome) = true := by
      rcases hor with h | h
      · simp [h]
      · simp [Option.isSome_iff_ne_none.mpr h]
    have hboth : ((req.expirationPreset != "") && req.customExpiration.isSome) = false := by
      cases hp : (req.expirationPreset != "") with
      | false => simp
      | true =>
        cases hcs : req.customExpiration.isSome with
        | false => simp
        | true =>
          exact absurd ⟨by simpa using hp, Option.isSome_iff_ne_none.mp hcs⟩ hnand
    simp only [UpdateURL, hfind]
    rw [if_neg hownb]
    by_cases hu : trimSpace req.url = ""
    · have hub : (trimSpace req.url != "") = false := by simp [hu]
      simp only [hub, hexpu, hboth, hexpb, hcalc, Bool.not_false, Bool.not_true,
        Bool.true_and, Bool.false_and, Bool.and_false, Bool.and_true, Bool.true_or,
        Bool.or_true, Bool.false_eq_true, Bool.true_eq_false, if_false, if_true, reduceIte]
      exact ⟨_, _, rfl, rfl⟩
    · have hub : (trimSpace req.url != "") = true := by simpa using hu
      have hlen : ¬(normalizeURL (trimSpace req.url)).length < 10 :=
        Nat.not_lt.mpr (hurl hu)
      simp only [hub, hexpu, hboth, hexpb, hcalc, Bool.not_false, Bool.not_true,
        Bool.true_and, Bool.false_and, Bool.and_false, Bool.and_true, Bool.true_or,
        Bool.or_true, Bool.false_eq_true, Bool.true_eq_false, if_false, if_true, reduceIte]
      rw [if_neg hu, if_neg hlen]
      simp only [hcalc]
      exact ⟨_, _, rfl, rfl⟩

/-- C9 witness: on the sample link, expired at instant 2000, a pure
destination change is refused with the expired-link error, while a
preset expiration change succeeds and stores the new expiry. -/
theorem updateURL_expired_link_witness :
    UpdateURL sampleDb none none "abc123" "u1" ⟨"newsite.com", "", none⟩ 2000
      = Except.error UpdateErr.expiredLinkUpdate ∧
    ∃ r db2, UpdateURL sampleDb none none "abc123" "u1" ⟨"", "1hour", none⟩ 2000
      = Except.ok (r, db2) ∧ r.expiresAt = some 5600 :=
  have h1 := updateURL_expired_link sampleDb "abc123" "u1" ⟨"newsite.com", "", none⟩ 2000 1000
    sampleRec rfl rfl rfl (by omega)
  have h2 := updateURL_expired_link sampleDb "abc123" "u1" ⟨"", "1hour", none⟩ 2000 1000
    sampleRec rfl rfl rfl (by omega)
  ⟨h1.1 ⟨by decide, rfl, rfl⟩,
    h2.2 5600 (Or.inl (by decide)) (by simp) rfl (fun h => absurd rfl h)⟩

/-- C3 counterexample: at the input the claim names, with reference time
at the epoch, CalculateExpiration succeeds — it returns the instant
4 years, 11 months and 30 days later (which happens to be exactly 1825
days here) — instead of failing with the bounds error, because the
approximated total is `4*365 + 11*30 + 30 = 1820` days, strictly below
1825. -/
theorem calcExpiration_c3_counterexample :
    CalculateExpiration "" (some ⟨"4", "11", "30", "0", "0"⟩) 0 = Except.ok 157680000 :=
  rfl

/-- C3 (amended): for every reference time, ComputeExpiration of the
custom specification years 4, months 11, days 30, hours 0, minutes 0
does not fail with the bounds error — its approximated total is 1820
days, strictly below the 1825-day bound — and instead returns the
instant 4 years, 11 months and 30 days after the reference time
(or the must-be-in-the-future validation error, never the bounds
error). -/
theorem calcExpiration_c3_amended (t0 : Int) :
    CalculateExpiration "" (some ⟨"4", "11", "30", "0", "0"⟩) t0 ≠ Except.error ExpErr.bounds ∧
    (CalculateExpiration "" (some ⟨"4", "11", "30", "0", "0"⟩) t0
        = Except.ok (addDate t0 4 11 30) ∨
      CalculateExpiration "" (some ⟨"4", "11", "30", "0", "0"⟩) t0
        = Except.error ExpErr.notFuture) := by
  have h4 : atoi "4" = some 4 := rfl
  have h11 : atoi "11" = some 11 := rfl
  have h30 : atoi "30" = some 30 := rfl
  have h0 : atoi "0" = some 0 := rfl
  have hred : CalculateExpiration "" (some ⟨"4", "11", "30", "0", "0"⟩) t0
      = if timeAfter (addDate t0 4 11 30) t0 then Except.ok (addDate t0 4 11 30)
        else Except.error ExpErr.notFuture := by
    simp only [CalculateExpiration, h4, h11, h30, h0]
    norm_num
  rw [hred]
  cases h : timeAfter (addDate t0 4 11 30) t0 <;> simp [h]

/-- Helper: reading back a key just written into the request map. -/
theorem find?_storeTimes_self (m : List (String × List Int)) (k : String) (ts : List Int) :
    (storeTimes m k ts).find? (fun p => p.1 == k) = some (k, ts) := by
  induction m with
  | nil => simp [storeTimes, List.find?_cons]
  | cons h t ih =>
    unfold storeTimes
    cases hh : (h.1 == k) with
    | true =>
      rw [List.find?_cons, hh]
      simp only [Option.isSome_some, if_true, reduceIte, List.map_cons, hh, List.find?_cons]
      simp [List.find?_cons]
    | false =>
      rw [List.find?_cons, hh]
      unfold storeTimes at ih
      cases hf : (t.find? (fun p => p.1 == k)).isSome with
      | true =>
        rw [hf] at ih
        simp only [hf, if_true, reduceIte, List.map_cons, hh, List.find?_cons]
        simpa [hh] using ih
      | false =>
        rw [hf] at ih
        simp only [hf, Bool.false_eq_true, if_false, reduceIte, List.cons_append,
          List.find?_cons, hh]
        simpa [hh] using ih

/-- Helper: the stored list of a key just written. -/
theorem lookupTimes_storeTimes (m : List (String × List Int)) (k : String) (ts : List Int) :
    lookupTimes (storeTimes m k ts) k = ts := by
  unfold lookupTimes
  rw [find?_storeTimes_self]

/-- Helper: every element of a constant list survives a filter its
element passes. -/
theorem filter_gt_replicate (j : Nat) (now cutoff : Int) (h : cutoff < now) :
    (List.replicate j now).filter (fun t => decide (cutoff < t)) = List.replicate j now := by
  induction j with
  | zero => rfl
  | succ n ih => simp [List.replicate_succ, List.filter_cons, h, ih]

/-- Helper: a rejected Allow call returns the state unchanged. -/
theorem allow_false_state (rl : RateLimiter) (ip : String) (now : Int) (rl1 : RateLimiter)
    (h : Allow rl ip now = (false, rl1)) : rl1 = rl := by
  unfold Allow at h
  dsimp only at h
  split at h
  · exact (((Prod.mk.injEq _ _ _ _).mp h).2).symm
  · exact absurd ((Prod.mk.injEq _ _ _ _).mp h).1 (by simp)

/-- Helper: an allowed Allow call stores exactly the surviving
timestamps followed by the current instant. -/
theorem allow_true_state (rl : RateLimiter) (ip : String) (now : Int) (rl1 : RateLimiter)
    (h : Allow rl ip now = (true, rl1)) :
    lookupTimes rl1.requests ip
      = (lookupTimes rl.requests ip).filter (fun t => decide (now - rl.window < t)) ++ [now] := by
  unfold Allow at h
  dsimp only at h
  split at h
  · exact absurd ((Prod.mk.injEq _ _ _ _).mp h).1 (by simp)
  · rw [← ((Prod.mk.injEq _ _ _ _).mp h).2]
    exact lookupTimes_storeTimes rl.requests ip _

/-- Helper: the run of Allow calls at one instant from a state holding
`j` copies of that instant produces `mr - j` acceptances and then only
rejections. -/
theorem allowRun_replicate (mr : Nat) (w : Int) (reqs : List (String × List Int))
    (ip : String) (now : Int) (j n : Nat) (hw : 0 < w)
    (hj : lookupTimes reqs ip = List.replicate j now) :
    (allowRun ⟨reqs, mr, w⟩ ip now n).1
      = List.replicate (min n (mr - j)) true ++ List.replicate (n - (mr - j)) false := by
  induction n generalizing reqs j with
  | zero => simp [allowRun]
  | succ n ih =>
    unfold allowRun Allow
    simp only [hj]
    rw [filter_gt_replicate j now (now - w) (by omega)]
    simp only [List.length_replicate]
    by_cases hle : mr ≤ j
    · rw [if_pos hle]
      have h0 : mr - j = 0 := by omega
      have hrec := ih reqs j hj
      simp only [hrec, h0, Nat.min_zero, Nat.sub_zero, List.replicate_zero, List.nil_append,
        List.replicate_succ]
    · rw [if_neg hle]
      have hg : lookupTimes (storeTimes reqs ip (List.replicate j now ++ [now])) ip
          = List.replicate (j + 1) now := by
        rw [lookupTimes_storeTimes, ← List.replicate_succ']
      have hrec := ih _ (j + 1) hg
      simp only [hrec]
      have h1 : min (n + 1) (mr - j) = min n (mr - (j + 1)) + 1 := by omega
      have h2 : (n + 1) - (mr - j) = n - (mr - (j + 1)) := by omega
      rw [h1, h2, List.replicate_succ, List.cons_append]

/-- C5: with a fresh key, `maxReqs + 1` rapid Allow calls inside one
window return true exactly `maxReqs` times and then false; every
rejected call leaves the stored state untouched (nothing is recorded),
and every allowed call stores exactly the timestamps newer than
`now - window` followed by the current instant. -/
theorem rateLimiter_allow_sliding_window (rl : RateLimiter) (ip : String) (now : Int)
    (hw : 0 < rl.window) (hempty : lookupTimes rl.requests ip = []) :
    (allowRun rl ip now (rl.maxReqs + 1)).1
        = List.replicate rl.maxReqs true ++ [false] ∧
    (∀ rl0 now0 rl1, Allow rl0 ip now0 = (false, rl1) → rl1 = rl0) ∧
    (∀ (rl0 : RateLimiter) now0 rl1, Allow rl0 ip now0 = (true, rl1) →
      lookupTimes rl1.requests ip
        = (lookupTimes rl0.requests ip).filter
            (fun t => decide (now0 - rl0.window < t)) ++ [now0]) := by
  refine ⟨?_, fun rl0 now0 rl1 h => allow_false_state rl0 ip now0 rl1 h,
    fun rl0 now0 rl1 h => allow_true_state rl0 ip now0 rl1 h⟩
  obtain ⟨reqs, mr, w⟩ := rl
  have := allowRun_replicate mr w reqs ip now 0 (mr + 1) hw hempty
  simp only [Nat.sub_zero] at this
  rw [this]
  have h1 : min (mr + 1) mr = mr := by omega
  have h2 : mr + 1 - mr = 1 := by omega
  rw [h1, h2]
  rfl

/-- C5 witness: three allowed calls then a rejection, with bound 3 and a
10-second window from an empty state. -/
theorem rateLimiter_allow_sliding_window_witness :
    (allowRun ⟨[], 3, 10⟩ "k" 100 4).1 = List.replicate 3 true ++ [false] :=
  (rateLimiter_allow_sliding_window ⟨[], 3, 10⟩ "k" 100 (by decide) rfl).1

/-- Helper: when every attempt within the fuel collides and the store
never errors, the generation loop exhausts its fuel. -/
theorem genLoop_exhausts (db : Db) (o : GenOracle) (u uid p : String)
    (c : Option CustomExpiration) (now : Int) :
    ∀ fuel attempt,
      (∀ i, attempt ≤ i → i < attempt + fuel →
        o.lookupErr i = none ∧ (findByCode db (o.gen i)).isSome) →
      generateShortCodeLoop db o u uid p c now attempt fuel
        = Except.error GenErr.exhausted := by
  intro fuel
  induction fuel with
  | zero => intro attempt h; rfl
  | succ n ih =>
    intro attempt h
    have h0 := h attempt (le_refl _) (by omega)
    obtain ⟨v, hv⟩ := Option.isSome_iff_exists.mp h0.2
    unfold generateShortCodeLoop
    dsimp only
    rw [h0.1, hv]
    exact ih (attempt + 1) (fun i h1 h2 => h i (by omega) (by omega))

/-- Helper: a driver-level lookup error after a run of collisions aborts
the loop at once with that error. -/
theorem genLoop_aborts (db : Db) (o : GenOracle) (u uid p : String)
    (c : Option CustomExpiration) (now : Int) :
    ∀ k fuel attempt e, k < fuel →
      (∀ i, attempt ≤ i → i < attempt + k →
        o.lookupErr i = none ∧ (findByCode db (o.gen i)).isSome) →
      o.lookupErr (attempt + k) = some e →
      generateShortCodeLoop db o u uid p c now attempt fuel
        = Except.error (GenErr.db e) := by
  intro k
  induction k with
  | zero =>
    intro fuel attempt e hk hcol herr
    obtain ⟨m, rfl⟩ : ∃ m, fuel = m + 1 := ⟨fuel - 1, by omega⟩
    unfold generateShortCodeLoop
    dsimp only
    rw [show attempt + 0 = attempt from rfl] at herr
    rw [herr]
  | succ n ih =>
    intro fuel attempt e hk hcol herr
    obtain ⟨m, rfl⟩ : ∃ m, fuel = m + 1 := ⟨fuel - 1, by omega⟩
    have h0 := hcol attempt (le_refl _) (by omega)
    obtain ⟨v, hv⟩ := Option.isSome_iff_exists.mp h0.2
    unfold generateShortCodeLoop
    dsimp only
    rw [h0.1, hv]
    refine ih m (attempt + 1) e (by omega)
      (fun i h1 h2 => hcol i (by omega) (by omega)) ?_
    rw [show attempt + 1 + n = attempt + (n + 1) by omega]
    exact herr

/-- Helper: a successful loop run returns a record whose code was absent
from the store, and appends exactly that record. -/
theorem genLoop_ok (db : Db) (o : GenOracle) (u uid p : String)
    (c : Option CustomExpiration) (now : Int) :
    ∀ fuel attempt r db2,
      generateShortCodeLoop db o u uid p c now attempt fuel = Except.ok (r, db2) →
      findByCode db r.shortCode = none ∧ db2.urls = db.urls ++ [r] := by
  intro fuel
  induction fuel with
  | zero => intro attempt r db2 h; exact absurd h (by simp [generateShortCodeLoop])
  | succ n ih =>
    intro attempt r db2 h
    unfold generateShortCodeLoop at h
    dsimp only at h
    cases hl : o.lookupErr attempt with
    | some e => rw [hl] at h; exact absurd h (by simp)
    | none =>
      rw [hl] at h
      cases hf : findByCode db (o.gen attempt) with
      | some v => rw [hf] at h; exact ih (attempt + 1) r db2 h
      | none =>
        rw [hf] at h
        cases hc : CalculateExpiration p c now with
        | error e => rw [hc] at h; exact absurd h (by simp)
        | ok expAt =>
          rw [hc] at h
          cases hcr : o.createErr attempt with
          | some e => rw [hcr] at h; exact absurd h (by simp)
          | none =>
            rw [hcr] at h
            simp only [Except.ok.injEq, Prod.mk.injEq] at h
            obtain ⟨hr, hdb⟩ := h
            constructor
            · rw [← hr]
              exact hf
            · rw [← hdb, ← hr]

/-- C4: the creation loop retries collisions at most `maxAttempts = 10`
times and fails with the exhaustion error when every attempt collides; a
driver-level (non-uniqueness) lookup error after any run of collisions
aborts at once with exactly that error; and a success returns a code
absent from the store and appends it — so a second successful creation
from the resulting store never returns the same code. -/
theorem generateShortCode_retry_bound (db : Db) (o : GenOracle) (u uid p : String)
    (c : Option CustomExpiration) (now : Int) :
    ((∀ i, i < 10 → o.lookupErr i = none ∧ (findByCode db (o.gen i)).isSome) →
      GenerateShortCode db o u uid p c now = Except.error GenErr.exhausted) ∧
    (∀ k e, k < 10 →
      (∀ i, i < k → o.lookupErr i = none ∧ (findByCode db (o.gen i)).isSome) →
      o.lookupErr k = some e →
      GenerateShortCode db o u uid p c now = Except.error (GenErr.db e)) ∧
    (∀ r db2, GenerateShortCode db o u uid p c now = Except.ok (r, db2) →
      findByCode db r.shortCode = none ∧ db2.urls = db.urls ++ [r]) ∧
    (∀ r db2 (o2 : GenOracle) (u2 uid2 p2 : String) (c2 : Option CustomExpiration)
        (now2 : Int) r2 db3,
      GenerateShortCode db o u uid p c now = Except.ok (r, db2) →
      GenerateShortCode db2 o2 u2 uid2 p2 c2 now2 = Except.ok (r2, db3) →
      r2.shortCode ≠ r.shortCode) := by
  refine ⟨?_, ?_, ?_, ?_⟩
  · intro h
    exact genLoop_exhausts db o u uid p c now 10 0 (fun i h1 h2 => h i (by omega))
  · intro k e hk hcol herr
    exact genLoop_aborts db o u uid p c now k 10 0 e hk
      (fun i h1 h2 => hcol i (by omega)) (by simpa using herr)
  · intro r db2 h
    exact genLoop_ok db o u uid p c now 10 0 r db2 h
  · intro r db2 o2 u2 uid2 p2 c2 now2 r2 db3 h1 h2
    obtain ⟨hnone1, happ1⟩ := genLoop_ok db o u uid p c now 10 0 r db2 h1
    obtain ⟨hnone2, _⟩ := genLoop_ok db2 o2 u2 uid2 p2 c2 now2 10 0 r2 db3 h2
    intro heq
    rw [heq] at hnone2
    unfold findByCode at hnone2
    rw [happ1, List.find?_append] at hnone2
    have hself : List.find? (fun u => u.shortCode == r.shortCode) [r] = some r := by
      simp [List.find?_cons]
    rw [hself] at hnone2
    cases hfd : List.find? (fun u => u.shortCode == r.shortCode) db.urls with
    | none => rw [hfd] at hnone2; simp at hnone2
    | some v => rw [hfd] at hnone2; simp at hnone2

/-- C4 witness: a code source that always collides with the stored code
exhausts after the attempt bound; one that stops colliding succeeds with
a fresh code. -/
theorem generateShortCode_retry_bound_witness :
    GenerateShortCode sampleDb ⟨fun _ => "abc123", fun _ => none, fun _ => none⟩
      "https://x.co" "u1" "1hour" none 0 = Except.error GenErr.exhausted :=
  (generateShortCode_retry_bound sampleDb ⟨fun _ => "abc123", fun _ => none, fun _ => none⟩
    "https://x.co" "u1" "1hour" none 0).1 (by decide)

/-- C6 counterexample: the exact-window invariant is not maintained by
rejected accesses.  With bound 1, window 10 and stored stamps 0 and 95,
the access at instant 100 is rejected and leaves the map untouched, so
the stamp 0 — far outside the window ending at 100 — is still stored
right after an access. -/
theorem rateLimiter_lazy_prune_counterexample :
    (Allow ⟨[("k", [0, 95])], 1, 10⟩ "k" 100).1 = false ∧
    (Allow ⟨[("k", [0, 95])], 1, 10⟩ "k" 100).2 = ⟨[("k", [0, 95])], 1, 10⟩ ∧
    (0 : Int) ∈ lookupTimes (Allow ⟨[("k", [0, 95])], 1, 10⟩ "k" 100).2.requests "k" ∧
    ¬((100 : Int) - 10 ≤ 0) := by
  refine ⟨rfl, rfl, ?_, by decide⟩
  simp [Allow, lookupTimes, List.find?_cons]

/-- Helper: the stored list of a key after a prune-and-drop sweep pass,
expressed entry by entry. -/
theorem lookupTimes_cons (a : String × List Int) (l : List (String × List Int)) (k : String) :
    lookupTimes (a :: l) k = if (a.1 == k) = true then a.2 else lookupTimes l k := by
  unfold lookupTimes
  rw [List.find?_cons]
  cases h : (a.1 == k) <;> simp [h]

/-- Helper: a timestamp inside the window survives the sweep of the
request map (the entry holding it stays non-empty, so the key is kept). -/
theorem sweep_keeps_inwindow (l : List (String × List Int)) (cutoff : Int) (k : String)
    (t : Int) (ht : t ∈ lookupTimes l k) (hw : cutoff < t) :
    t ∈ lookupTimes
      ((l.map (fun p => (p.1, p.2.filter (fun x => decide (cutoff < x))))).filter
        (fun p => !p.2.isEmpty)) k := by
  induction l with
  | nil => simp [lookupTimes] at ht
  | cons a l ih =>
    rw [lookupTimes_cons] at ht
    by_cases ha : (a.1 == k) = true
    · rw [if_pos ha] at ht
      have hmem : t ∈ a.2.filter (fun x => decide (cutoff < x)) :=
        List.mem_filter.mpr ⟨ht, by simpa using hw⟩
      have hne : (a.2.filter (fun x => decide (cutoff < x))).isEmpty = false := by
        cases hh : a.2.filter (fun x => decide (cutoff < x)) with
        | nil => rw [hh] at hmem; simp at hmem
        | cons x xs => simp [hh]
      simp only [List.map_cons, List.filter_cons, hne, Bool.not_false, if_true, reduceIte]
      rw [lookupTimes_cons]
      simp only [ha, if_true, reduceIte]
      exact hmem
    · rw [if_neg ha] at ht
      simp only [List.map_cons, List.filter_cons]
      cases hk : !(a.2.filter (fun x => decide (cutoff < x))).isEmpty with
      | true =>
        simp only [hk, if_true, reduceIte]
        rw [lookupTimes_cons]
        simp only [ha, Bool.false_eq_true, if_false, reduceIte]
        · exact ih ht
      | false =>
        simp only [hk, Bool.false_eq_true, if_false, reduceIte]
        exact ih ht

/-- C6 (amended): the exact-window property holds at the instants the
state is actually rewritten, not at every access.  The periodic sweep
leaves exactly the timestamps strictly newer than `now - window` and
removes keys left with zero entries; an allowed access stores exactly
the surviving timestamps plus the current instant; but a rejected access
returns the map unchanged — it prunes only a local copy — so stale
timestamps can persist until the next allowed access or sweep. -/
theorem rateLimiter_pruning_amended (rl : RateLimiter) (now : Int) :
    (∀ k ts, (k, ts) ∈ (cleanupOldEntries rl now).requests →
      ts ≠ [] ∧ ∀ t ∈ ts, now - rl.window < t) ∧
    (∀ k t, t ∈ lookupTimes rl.requests k → now - rl.window < t →
      t ∈ lookupTimes (cleanupOldEntries rl now).requests k) ∧
    (∀ ip rl1, Allow rl ip now = (true, rl1) →
      lookupTimes rl1.requests ip
        = (lookupTimes rl.requests ip).filter
            (fun t => decide (now - rl.window < t)) ++ [now]) ∧
    (∀ ip rl1, Allow rl ip now = (false, rl1) → rl1 = rl) := by
  refine ⟨?_, ?_, fun ip rl1 h => allow_true_state rl ip now rl1 h,
    fun ip rl1 h => allow_false_state rl ip now rl1 h⟩
  · intro k ts hmem
    unfold cleanupOldEntries at hmem
    dsimp only at hmem
    obtain ⟨hmem2, hne⟩ := List.mem_filter.mp hmem
    obtain ⟨p, hp, hpe⟩ := List.mem_map.mp hmem2
    refine ⟨?_, ?_⟩
    · have : ts.isEmpty = false := by simpa using hne
      cases hts : ts with
      | nil => rw [hts] at this; simp at this
      | cons x xs => simp
    · intro t htmem
      have hts : ts = p.2.filter (fun x => decide (now - rl.window < x)) := by
        have := congrArg Prod.snd hpe
        simpa using this.symm
      rw [hts] at htmem
      simpa using (List.mem_filter.mp htmem).2
  · intro k t ht hw
    exact sweep_keeps_inwindow rl.requests (now - rl.window) k t ht hw

/-- C6 witness: the amended sweep statement applied to a concrete map —
the in-window stamp 95 survives the sweep at instant 100. -/
theorem rateLimiter_pruning_amended_witness :
    (95 : Int) ∈ lookupTimes (cleanupOldEntries ⟨[("k", [0, 95])], 1, 10⟩ 100).requests "k" :=
  (rateLimiter_pruning_amended ⟨[("k", [0, 95])], 1, 10⟩ 100).2.1 "k" 95
    (by simp [lookupTimes, List.find?_cons]) (by decide)

/-- C7: with a signing secret configured and a positive ttl, Verify
immediately after Issue succeeds and the returned claims carry the
subject id, email and provider passed to Issue. -/
theorem token_issue_verify_roundtrip (secret : String) (expiryHours : Int)
    (userID email provider : String) (now : Int)
    (hs : secret ≠ "") (ht : 0 < expiryHours) :
    ∃ tok, GenerateToken secret expiryHours userID email provider now = Except.ok tok ∧
      ValidateToken secret tok now = Except.ok ⟨userID, email, provider⟩ := by
  refine ⟨{ alg := .hs256,
            payload := identityPayload userID email provider (now + expiryHours * 3600) now,
            sig := macSign secret .hs256
              (identityPayload userID email provider (now + expiryHours * 3600) now) },
          ?_, ?_⟩
  · unfold GenerateToken
    rw [if_neg hs]
  · unfold ValidateToken identityPayload macSign
    rw [if_neg hs]
    have h1 : ¬(now + expiryHours * 3600 ≤ now) := by omega
    simp [SigAlg.isHMAC, h1]

/-- C7 witness: the roundtrip at a concrete secret, ttl and identity. -/
theorem token_issue_verify_roundtrip_witness :
    ∃ tok, GenerateToken "sec" 24 "u" "e" "google" 0 = Except.ok tok ∧
      ValidateToken "sec" tok 0 = Except.ok ⟨"u", "e", "google"⟩ :=
  token_issue_verify_roundtrip "sec" 24 "u" "e" "google" 0 (by decide) (by decide)

/-- C8: the scoped verifier rejects every token whose type discriminator
is not the purpose tag `qr`, whatever its signature, window or other
claims. -/
theorem qrToken_type_discriminator (secret : String) (tok : SignedToken) (now : Int)
    (hty : tok.payload.tokenType ≠ "qr") :
    (ValidateQRToken secret tok now).isOk = false := by
  unfold ValidateQRToken
  split
  · rfl
  split
  · rfl
  split
  · rfl
  split
  · rfl
  split
  · rfl
  rw [if_pos hty]
  rfl

/-- C8 witness: an otherwise-valid general identity token — fresh from
GenerateToken, correctly signed, inside its window — presented to the QR
verifier is rejected, because its type discriminator is empty. -/
theorem qrToken_type_discriminator_witness :
    (ValidateQRToken "sec" sampleIdentityToken 10).isOk = false :=
  qrToken_type_discriminator "sec" sampleIdentityToken 10 (by decide)

/-- C10: at the failing input — a request with no cookie and no
Authorization header — the gateway terminates with the 401 JSON body
alone, and no cache-prevention header is ever set; likewise the
browser-mode redirect failure carries no cache-prevention header.  The
claim that every terminating failure sets cache-prevention headers first
does not hold: handler.setNoCacheHeaders exists for that purpose but has
no call site. -/
theorem authGateway_no_cache_headers_at_failing_input :
    (validateAuthToken (fun _ => none) "secret" 0 ⟨"/api/urls", "", [], []⟩
        ⟨"auth_token", false, false, "/auth/login-page"⟩ =
      (AuthOutcome.failed, [RespAction.jsonResponse 401 "Missing or invalid authentication token"])) ∧
    ((validateAuthToken (fun _ => none) "secret" 0 ⟨"/api/urls", "", [], []⟩
        ⟨"auth_token", false, false, "/auth/login-page"⟩).2.all
      (fun a => !isCachePreventionHeader a) = true) ∧
    (validateAuthToken (fun _ => none) "secret" 0 ⟨"/swagger", "", [], []⟩
        ⟨"swagger_auth_token", true, true, "/auth/login-page"⟩ =
      (AuthOutcome.failed, [RespAction.redirectResponse 307 "/auth/login-page?redirect=%2Fswagger"])) ∧
    ((validateAuthToken (fun _ => none) "secret" 0 ⟨"/swagger", "", [], []⟩
        ⟨"swagger_auth_token", true, true, "/auth/login-page"⟩).2.all
      (fun a => !isCachePreventionHeader a) = true) :=
  ⟨rfl, rfl, rfl, rfl⟩

end UrlShortner
